import Mathlib

/-!
Verification of the grade estimation engine of the igcse-estimator
repository against its specification.

The repository ships the HTTP route `src/app/api/estimate/calculate/route.ts`
(embedded below as `routePOST`); the engine it calls
(`@/lib/calculation/calculate`) is not part of the available sources, so the
engine components (Component Aggregator, Boundary Resolver, Grade Classifier,
Estimation Orchestrator) are modelled from the specification, sections 3, 4
and 7.  Marks, weights and thresholds are modelled as rationals.
-/

namespace Engine

/-- Grade labels in the fixed descending order A*, A, B, C, D, E, F, G, U. -/
inductive Grade
  | aStar
  | a
  | b
  | c
  | d
  | e
  | f
  | g
  | u
  deriving DecidableEq

/-- The eight grades that carry thresholds, in descending rank (U is the
default and has no explicit minimum). -/
def gradesDesc : List Grade :=
  [Grade.aStar, Grade.a, Grade.b, Grade.c, Grade.d, Grade.e, Grade.f, Grade.g]

/-- The full label set A*, A, B, C, D, E, F, G, U. -/
def allGrades : List Grade := gradesDesc ++ [Grade.u]

/-- Modelled from the spec: a Component Definition (section 3, Subject
Syllabus) — component code, maximum raw mark, weight. -/
structure ComponentDef where
  code : String
  maxMark : ℚ
  weight : ℚ
  deriving DecidableEq

/-- Modelled from the spec: a Subject Syllabus (section 3) — identity plus an
ordered list of component definitions. -/
structure Subject where
  subjectId : String
  components : List ComponentDef
  deriving DecidableEq

/-- Modelled from the spec: the Component Aggregator's error conditions
(section 4.1). -/
inductive AggError
  | missingComponent (code : String)
  | unknownComponent (code : String)
  | markOutOfRange (code : String)
  deriving DecidableEq

deriving instance DecidableEq for Except

/-- Look up the raw mark supplied for a component code. -/
def lookupMark (marks : List (String × ℚ)) (code : String) : Option ℚ :=
  (marks.find? (fun p => p.1 == code)).map Prod.snd

/-- Modelled from the spec: the Component Aggregator's validation (section
4.1) — every defined component must have a supplied mark in range, and no
unknown component codes may appear. -/
def componentErrors (subj : Subject) (marks : List (String × ℚ)) : List AggError :=
  (subj.components.filterMap fun comp =>
    match lookupMark marks comp.code with
    | none => some (AggError.missingComponent comp.code)
    | some m =>
      if m < 0 ∨ comp.maxMark < m then some (AggError.markOutOfRange comp.code)
      else none)
  ++ (marks.filterMap fun p =>
    if subj.components.any (fun comp => comp.code == p.1) then none
    else some (AggError.unknownComponent p.1))

/-- Modelled from the spec: the weighted sum of section 4.1 — for each
component `mark / maxMark * weight`, summed across components. -/
def weightedSum (subj : Subject) (marks : List (String × ℚ)) : ℚ :=
  (subj.components.map fun comp =>
    match lookupMark marks comp.code with
    | some m => m / comp.maxMark * comp.weight
    | none => 0).sum

/-- Explicit clamp of the normalized mark into the closed interval [0, 1]
(section 4.1: "clamp is explicit, not accidental"). -/
def clamp01 (x : ℚ) : ℚ := if x < 0 then 0 else if 1 < x then 1 else x

/-- Modelled from the spec: the Component Aggregator contract
`normalize(subject, componentMarks) -> NormalizedMark | ValidationError`
(section 4.1). -/
def normalize (subj : Subject) (marks : List (String × ℚ)) :
    Except (List AggError) ℚ :=
  match componentErrors subj marks with
  | [] => Except.ok (clamp01 (weightedSum subj marks))
  | errs => Except.error errs

/-- Modelled from the spec: the Grade Classifier (section 4.3) — scan the
boundary table from A* downward and return the first grade whose threshold is
less than or equal to the mark; default to U. -/
def classifyList (mark : ℚ) : List (Grade × Option ℚ) → Grade
  | [] => Grade.u
  | (gr, some t) :: rest => if t ≤ mark then gr else classifyList mark rest
  | (_, none) :: rest => classifyList mark rest

/-- A table entry meets the mark when it has a threshold at most the mark. -/
def meets (mark : ℚ) : Grade × Option ℚ → Prop
  | (_, some t) => t ≤ mark
  | (_, none) => False

instance (mark : ℚ) (p : Grade × Option ℚ) : Decidable (meets mark p) := by
  rcases p with ⟨gr, _ | t⟩
  · exact isFalse (fun h => h)
  · exact inferInstanceAs (Decidable (t ≤ mark))

-- Example data from the spec (sections 8): subject with components
-- P1 (weight 0.4, max 40) and P2 (weight 0.6, max 60).
def exSubject : Subject :=
  ⟨"ex", [⟨"P1", 40, 2/5⟩, ⟨"P2", 60, 3/5⟩]⟩

def exMarks : List (String × ℚ) := [("P1", 32), ("P2", 54)]

def exTable : List (Grade × Option ℚ) :=
  [(Grade.aStar, some (9/10)), (Grade.a, some (8/10)), (Grade.b, some (7/10))]

lemma clamp01_nonneg (x : ℚ) : 0 ≤ clamp01 x := by
  unfold clamp01
  split_ifs <;> linarith

lemma clamp01_le_one (x : ℚ) : clamp01 x ≤ 1 := by
  unfold clamp01
  split_ifs <;> linarith

lemma clamp01_of_mem (x : ℚ) (h0 : 0 ≤ x) (h1 : x ≤ 1) : clamp01 x = x := by
  unfold clamp01
  rw [if_neg (not_lt.2 h0), if_neg (not_lt.2 h1)]

/-- C1: for every subject whose component marks pass validation, `normalize`
returns the weighted sum `Σ (mark / maxMark) * weight` clamped into [0, 1]
(and equal to the raw weighted sum whenever that already lies in [0, 1]);
the example subject with components P1 (weight 0.4, max 40) and
P2 (weight 0.6, max 60) on marks P1 = 32, P2 = 54 normalizes to exactly
0.86 = 43/50. -/
theorem normalize_spec :
    (∀ subj marks r, normalize subj marks = Except.ok r →
      r = clamp01 (weightedSum subj marks) ∧ 0 ≤ r ∧ r ≤ 1 ∧
      (0 ≤ weightedSum subj marks → weightedSum subj marks ≤ 1 →
        r = weightedSum subj marks)) ∧
    normalize exSubject exMarks = Except.ok (43/50) := by
  constructor
  · intro subj marks r h
    unfold normalize at h
    rcases herr : componentErrors subj marks with _ | ⟨e0, es⟩
    · rw [herr] at h
      have hr : r = clamp01 (weightedSum subj marks) := by
        cases h
        rfl
      refine ⟨hr, ?_, ?_, ?_⟩
      · rw [hr]; exact clamp01_nonneg _
      · rw [hr]; exact clamp01_le_one _
      · intro h0 h1
        rw [hr, clamp01_of_mem _ h0 h1]
    · rw [herr] at h
      cases h
  · have h1 : lookupMark [("P1", (32:ℚ)), ("P2", 54)] "P1" = some 32 := rfl
    have h2 : lookupMark [("P1", (32:ℚ)), ("P2", 54)] "P2" = some 54 := rfl
    have hsum : weightedSum exSubject exMarks = 43/50 := by
      simp [weightedSum, exSubject, exMarks, h1, h2]
      norm_num
    have hclamp : clamp01 (43/50 : ℚ) = 43/50 := by
      unfold clamp01
      norm_num
    have herr : componentErrors exSubject exMarks = [] := by
      simp [componentErrors, exSubject, exMarks, h1, h2]
      norm_num
    simp [normalize, herr, hsum, hclamp]

/-- Concrete instantiation of `normalize_spec`: the example entry passes
validation and its normalized mark 43/50 lies in [0, 1]. -/
theorem normalize_spec_witness :
    (43 : ℚ)/50 = clamp01 (weightedSum exSubject exMarks) ∧
    (0 : ℚ) ≤ 43/50 ∧ (43 : ℚ)/50 ≤ 1 ∧
    (0 ≤ weightedSum exSubject exMarks → weightedSum exSubject exMarks ≤ 1 →
      (43 : ℚ)/50 = weightedSum exSubject exMarks) :=
  normalize_spec.1 exSubject exMarks (43/50) normalize_spec.2

lemma mem_allGrades (gr : Grade) : gr ∈ allGrades := by
  cases gr <;> simp [allGrades, gradesDesc]

lemma classifyList_of_no_meet (mark : ℚ) (table : List (Grade × Option ℚ))
    (h : ∀ p ∈ table, ¬ meets mark p) : classifyList mark table = Grade.u := by
  induction table with
  | nil => rfl
  | cons p rest ih =>
    rcases p with ⟨g0, _ | t0⟩
    · rw [classifyList]
      exact ih (fun q hq => h q (List.mem_cons_of_mem _ hq))
    · have ht : ¬ meets mark (g0, some t0) := h _ (List.mem_cons_self _ _)
      have ht' : ¬ t0 ≤ mark := ht
      rw [classifyList, if_neg ht']
      exact ih (fun q hq => h q (List.mem_cons_of_mem _ hq))

lemma classifyList_first_meet (mark : ℚ) (pre : List (Grade × Option ℚ))
    (gr : Grade) (t : ℚ) (post : List (Grade × Option ℚ))
    (hpre : ∀ p ∈ pre, ¬ meets mark p) (ht : t ≤ mark) :
    classifyList mark (pre ++ (gr, some t) :: post) = gr := by
  induction pre with
  | nil => rw [List.nil_append, classifyList, if_pos ht]
  | cons p rest ih =>
    rcases p with ⟨g0, _ | t0⟩
    · rw [List.cons_append, classifyList]
      exact ih (fun q hq => hpre q (List.mem_cons_of_mem _ hq))
    · have h0 : ¬ meets mark (g0, some t0) := hpre _ (List.mem_cons_self _ _)
      have h0' : ¬ t0 ≤ mark := h0
      rw [List.cons_append, classifyList, if_neg h0']
      exact ih (fun q hq => hpre q (List.mem_cons_of_mem _ hq))

/-- C2: `classifyList` is total — for every mark and boundary table it
returns exactly one grade from the fixed label set A*，A, B, C, D, E, F, G,
U; it returns U when no entry's threshold is met, and the first entry in
scan order (highest rank) whose threshold is less than or equal to the mark
otherwise — equality at a boundary counts as meeting it, so with the table
A*: 0.90, A: 0.80, B: 0.70 a mark of exactly 0.80 classifies as A. -/
theorem classify_total :
    (∀ mark table, classifyList mark table ∈ allGrades) ∧
    (∀ mark table, (∀ p ∈ table, ¬ meets mark p) →
      classifyList mark table = Grade.u) ∧
    (∀ mark pre gr t post, (∀ p ∈ pre, ¬ meets mark p) → t ≤ mark →
      classifyList mark (pre ++ (gr, some t) :: post) = gr) ∧
    classifyList (8/10) exTable = Grade.a := by
  refine ⟨fun mark table => mem_allGrades _,
    fun mark table h => classifyList_of_no_meet mark table h,
    fun mark pre gr t post hpre ht =>
      classifyList_first_meet mark pre gr t post hpre ht, ?_⟩
  norm_num [classifyList, exTable]

/-- Concrete instantiation of `classify_total`: a mark of 0.5 against a
table whose only threshold is 0.9 classifies as U, and a mark meeting the
head threshold exactly classifies as that grade. -/
theorem classify_total_witness :
    classifyList (1/2) [(Grade.aStar, some (9/10))] = Grade.u ∧
    classifyList (4/5) ([] ++ (Grade.a, some (4/5)) :: []) = Grade.a := by
  constructor
  · refine classify_total.2.1 (1/2) [(Grade.aStar, some (9/10))] ?_
    intro p hp
    simp only [List.mem_singleton] at hp
    subst hp
    show ¬ (9/10 : ℚ) ≤ 1/2
    norm_num
  · exact classify_total.2.2.1 (4/5) [] Grade.a (4/5) []
      (fun p hp => absurd hp (List.not_mem_nil p)) le_rfl

/-- Modelled from the spec: a Grade Boundary Record (section 3) — keyed by
year, holding a mapping from grade label to minimum normalized mark. -/
structure BoundaryRecord where
  year : ℕ
  thresholds : List (Grade × ℚ)
  deriving DecidableEq

/-- Modelled from the spec: the Boundary Resolver's failure modes (sections
4.2 and 7) — `InsufficientDataError` for zero years of data, and
`DataIntegrityError` for corruption beyond automatic repair (negative
thresholds). -/
inductive ResolveErr
  | insufficientData
  | dataIntegrity
  deriving DecidableEq

/-- Modelled from the spec: the resolver's result (section 4.2) — an
Effective Boundary Table with the shape of a single record plus metadata
(years actually used, adjusted flag). -/
structure EffectiveTable where
  entries : List (Grade × Option ℚ)
  yearsUsed : ℕ
  adjusted : Bool
  deriving DecidableEq

/-- A record is corrupt beyond repair when it holds a negative threshold
(section 7, `DataIntegrityError`). -/
def hasNegativeThreshold (r : BoundaryRecord) : Bool :=
  r.thresholds.any (fun p => decide (p.2 < 0))

/-- Modelled from the spec: recency-weighted contributions for one grade
(section 4.2) — each available year that has a threshold for the grade
contributes (weight, threshold); years lacking the grade are excluded, not
zero-filled.  The decay curve is a tunable parameter. -/
def gradePoints (decay : ℕ → ℚ) (currentYear : ℕ)
    (records : List BoundaryRecord) (gr : Grade) : List (ℚ × ℚ) :=
  records.filterMap fun r =>
    match r.thresholds.find? (fun p => p.1 == gr) with
    | some p => some (decay (currentYear - r.year), p.2)
    | none => none

/-- Modelled from the spec: the recency-weighted average threshold for a
grade across the available years (section 4.2), `none` when no year has a
threshold for the grade. -/
def avgThreshold (decay : ℕ → ℚ) (currentYear : ℕ)
    (records : List BoundaryRecord) (gr : Grade) : Option ℚ :=
  match gradePoints decay currentYear records gr with
  | [] => none
  | pts => some (((pts.map fun p => p.1 * p.2).sum) / ((pts.map Prod.fst).sum))

/-- The averaged (pre-repair) effective table, in descending grade order. -/
def rawTable (decay : ℕ → ℚ) (currentYear : ℕ)
    (records : List BoundaryRecord) : List (Grade × Option ℚ) :=
  gradesDesc.map fun gr => (gr, avgThreshold decay currentYear records gr)

/-- Modelled from the spec: the monotonicity repair (section 4.2) — walking
from A* downward, each grade's threshold is clamped to be at most the
threshold of the next-higher grade that has one (`cap`). -/
def repairAux : Option ℚ → List (Grade × Option ℚ) → List (Grade × Option ℚ)
  | _, [] => []
  | cap, (gr, none) :: rest => (gr, none) :: repairAux cap rest
  | none, (gr, some t) :: rest => (gr, some t) :: repairAux (some t) rest
  | some c, (gr, some t) :: rest =>
    if t ≤ c then (gr, some t) :: repairAux (some t) rest
    else (gr, some c) :: repairAux (some c) rest

/-- Modelled from the spec: the Boundary Resolver contract
`resolve(subject, season) -> EffectiveBoundaryTable | InsufficientDataError`
(section 4.2) applied to the records the Reference Data Provider returned
for the subject and season: zero years fail with `insufficientData`,
negative thresholds fail with `dataIntegrity`, otherwise the recency-
weighted averages are repaired to be monotonic and the record is flagged
adjusted whenever the repair changed anything. -/
def resolve (decay : ℕ → ℚ) (currentYear : ℕ)
    (records : List BoundaryRecord) : Except ResolveErr EffectiveTable :=
  match records with
  | [] => Except.error ResolveErr.insufficientData
  | _ :: _ =>
    if records.any hasNegativeThreshold then Except.error ResolveErr.dataIntegrity
    else
      Except.ok ⟨repairAux none (rawTable decay currentYear records),
        records.length,
        decide (repairAux none (rawTable decay currentYear records) ≠
          rawTable decay currentYear records)⟩

/-- Every present value in a repaired table with cap `c` is at most `c`. -/
lemma repairAux_le (c : ℚ) (l : List (Grade × Option ℚ)) :
    ∀ x ∈ (repairAux (some c) l).filterMap Prod.snd, x ≤ c := by
  induction l generalizing c with
  | nil => intro x hx; simp [repairAux] at hx
  | cons p rest ih =>
    rcases p with ⟨g0, _ | t0⟩
    · intro x hx
      rw [repairAux] at hx
      simp only [List.filterMap_cons] at hx
      exact ih c x hx
    · intro x hx
      rw [repairAux] at hx
      by_cases h : t0 ≤ c
      · rw [if_pos h] at hx
        simp only [List.filterMap_cons] at hx
        rcases List.mem_cons.1 hx with hx | hx
        · exact hx ▸ h
        · exact le_trans (ih t0 x hx) h
      · rw [if_neg h] at hx
        simp only [List.filterMap_cons] at hx
        rcases List.mem_cons.1 hx with hx | hx
        · exact le_of_eq hx
        · exact ih c x hx

/-- The present values of a repaired table are non-increasing. -/
lemma repairAux_chain (l : List (Grade × Option ℚ)) :
    ∀ cap, List.Chain' (fun x y => y ≤ x) ((repairAux cap l).filterMap Prod.snd) := by
  induction l with
  | nil => intro cap; simp [repairAux]
  | cons p rest ih =>
    intro cap
    rcases p with ⟨g0, _ | t0⟩
    · rw [repairAux]
      simp only [List.filterMap_cons]
      exact ih cap
    · rcases cap with _ | c
      · rw [repairAux]
        simp only [List.filterMap_cons]
        refine List.chain'_cons'.2 ⟨?_, ih (some t0)⟩
        intro y hy
        exact repairAux_le t0 rest y (List.mem_of_mem_head? hy)
      · rw [repairAux]
        by_cases h : t0 ≤ c
        · rw [if_pos h]
          simp only [List.filterMap_cons]
          refine List.chain'_cons'.2 ⟨?_, ih (some t0)⟩
          intro y hy
          exact repairAux_le t0 rest y (List.mem_of_mem_head? hy)
        · rw [if_neg h]
          simp only [List.filterMap_cons]
          refine List.chain'_cons'.2 ⟨?_, ih (some c)⟩
          intro y hy
          exact repairAux_le c rest y (List.mem_of_mem_head? hy)

/-- C3: whenever `resolve` succeeds, the resulting effective boundary table
has non-increasing thresholds from A* through G (among the grades that carry
a threshold); the table is exactly the monotonicity repair of the
recency-weighted raw averages, and whenever the repair changed the raw
averages (averaging violated monotonicity) the adjusted flag is set. -/
theorem resolve_monotone :
    ∀ decay currentYear records tbl,
      resolve decay currentYear records = Except.ok tbl →
      List.Chain' (fun x y => y ≤ x) (tbl.entries.filterMap Prod.snd) ∧
      tbl.entries = repairAux none (rawTable decay currentYear records) ∧
      (repairAux none (rawTable decay currentYear records) ≠
          rawTable decay currentYear records → tbl.adjusted = true) := by
  intro decay currentYear records tbl h
  rcases records with _ | ⟨r0, rest⟩
  · exact absurd h (by simp [resolve])
  · rw [resolve] at h
    by_cases hneg : (r0 :: rest).any hasNegativeThreshold
    · rw [if_pos hneg] at h
      cases h
    · rw [if_neg hneg] at h
      have htbl : tbl = ⟨repairAux none (rawTable decay currentYear (r0 :: rest)),
          (r0 :: rest).length,
          decide (repairAux none (rawTable decay currentYear (r0 :: rest)) ≠
            rawTable decay currentYear (r0 :: rest))⟩ := by
        cases h
        rfl
      subst htbl
      refine ⟨repairAux_chain _ none, rfl, ?_⟩
      intro hne
      simpa using hne

/-- A single sparse year whose A threshold exceeds its A* threshold. -/
def sparseRecords : List BoundaryRecord :=
  [⟨2025, [(Grade.aStar, 1/2), (Grade.a, 3/4)]⟩]

/-- The effective table the resolver produces for `sparseRecords` with
constant decay weight 1: the A threshold is clamped down to the A*
threshold and the result is flagged adjusted. -/
def sparseResolved : EffectiveTable :=
  ⟨[(Grade.aStar, some (1/2)), (Grade.a, some (1/2)), (Grade.b, none),
    (Grade.c, none), (Grade.d, none), (Grade.e, none), (Grade.f, none),
    (Grade.g, none)], 1, true⟩

lemma resolve_sparse :
    resolve (fun _ => 1) 2026 sparseRecords = Except.ok sparseResolved := by
  with_unfolding_all rfl

/-- Concrete instantiation of `resolve_monotone`: a single sparse year with
thresholds A* = 0.5 and A = 0.75 averages to a non-monotonic raw table; the
resolver repairs A down to 0.5 and flags the result adjusted. -/
theorem resolve_monotone_witness :
    List.Chain' (fun x y => y ≤ x)
      (sparseResolved.entries.filterMap Prod.snd) ∧
    sparseResolved.entries =
      repairAux none (rawTable (fun _ => 1) 2026 sparseRecords) ∧
    (repairAux none (rawTable (fun _ => 1) 2026 sparseRecords) ≠
      rawTable (fun _ => 1) 2026 sparseRecords →
      sparseResolved.adjusted = true) :=
  resolve_monotone (fun _ => 1) 2026 sparseRecords sparseResolved
    resolve_sparse

/-- Modelled from the spec: a Calculation Entry (section 3) — subject
identifier plus a mapping from component code to raw mark. -/
structure CalcEntry where
  subjectId : String
  marks : List (String × ℚ)
  deriving DecidableEq

/-- Modelled from the spec: an Estimate Result record (sections 3 and 6) —
subject identifier, normalized mark, estimated grade, years of data used
and the adjusted flag. -/
structure EstimateItem where
  subjectId : String
  normalizedMark : ℚ
  estimatedGrade : Grade
  yearsUsed : ℕ
  adjusted : Bool
  deriving DecidableEq

/-- Modelled from the spec: the error taxonomy of section 7. -/
inductive ErrKind
  | validation
  | insufficientData
  | dataIntegrity
  deriving DecidableEq

/-- Modelled from the spec: a typed engine error (sections 6 and 7) — a
machine-readable kind, a human-readable message, and the subject ids of the
offending entries. -/
structure EngineError where
  kind : ErrKind
  message : String
  offending : List String
  deriving DecidableEq

/-- Modelled from the spec: the read-only Reference Data Provider interface
(section 6) plus the resolver's tunable decay curve and the current year. -/
structure RefDataEnv where
  getSyllabus : String → Option Subject
  getBoundaries : String → String → List BoundaryRecord
  decay : ℕ → ℚ
  currentYear : ℕ

/-- The Aggregator errors of one entry (empty for unknown subjects, which
are reported separately as unknown-subject validation errors). -/
def entryAggErrors (env : RefDataEnv) (ent : CalcEntry) : List AggError :=
  match env.getSyllabus ent.subjectId with
  | some subj => componentErrors subj ent.marks
  | none => []

/-- Modelled from the spec: per-entry processing (sections 4.4 and 7) —
aggregate the entry's marks, resolve the boundaries for its subject and
season, then classify; an `insufficientData` resolver failure degrades the
entry to grade U with zero years used, while a `dataIntegrity` failure
propagates. -/
def processEntry (env : RefDataEnv) (season : String) (ent : CalcEntry) :
    Except EngineError EstimateItem :=
  match env.getSyllabus ent.subjectId with
  | none => Except.error ⟨ErrKind.validation, "unknown subject id", [ent.subjectId]⟩
  | some subj =>
    match resolve env.decay env.currentYear (env.getBoundaries ent.subjectId season) with
    | Except.error ResolveErr.insufficientData =>
      Except.ok ⟨ent.subjectId, clamp01 (weightedSum subj ent.marks), Grade.u, 0, false⟩
    | Except.error ResolveErr.dataIntegrity =>
      Except.error ⟨ErrKind.dataIntegrity, "corrupt boundary data", [ent.subjectId]⟩
    | Except.ok tbl =>
      Except.ok ⟨ent.subjectId, clamp01 (weightedSum subj ent.marks),
        classifyList (clamp01 (weightedSum subj ent.marks)) tbl.entries,
        tbl.yearsUsed, tbl.adjusted⟩

/-- Process the validated entries in input order, stopping at the first
propagating error. -/
def processEntries (env : RefDataEnv) (season : String) :
    List CalcEntry → Except EngineError (List EstimateItem)
  | [] => Except.ok []
  | ent :: rest =>
    match processEntry env season ent with
    | Except.error err => Except.error err
    | Except.ok item =>
      match processEntries env season rest with
      | Except.error err => Except.error err
      | Except.ok items => Except.ok (item :: items)

/-- Entries whose subject id the Reference Data Provider does not know. -/
def unknownEntries (env : RefDataEnv) (entries : List CalcEntry) : List CalcEntry :=
  entries.filter (fun ent => (env.getSyllabus ent.subjectId).isNone)

/-- Entries whose component marks fail the Aggregator's validation. -/
def offendingEntries (env : RefDataEnv) (entries : List CalcEntry) : List CalcEntry :=
  entries.filter (fun ent => decide (entryAggErrors env ent ≠ []))

/-- Modelled from the spec: the Estimation Orchestrator contract
`estimate(entries, season) -> EstimateResult[] | ValidationError`
(section 4.4) — validate the entry count (1 to 20) and subject ids, fail the
whole call with one aggregated validation error when any entry has
Aggregator errors, then process the entries in order. -/
def estimate (env : RefDataEnv) (entries : List CalcEntry) (season : String) :
    Except EngineError (List EstimateItem) :=
  if entries.length = 0 ∨ 20 < entries.length then
    Except.error ⟨ErrKind.validation, "entry count must be between 1 and 20", []⟩
  else if unknownEntries env entries ≠ [] then
    Except.error ⟨ErrKind.validation, "unknown subject id",
      (unknownEntries env entries).map CalcEntry.subjectId⟩
  else if offendingEntries env entries ≠ [] then
    Except.error ⟨ErrKind.validation, "invalid component marks",
      (offendingEntries env entries).map CalcEntry.subjectId⟩
  else
    processEntries env season entries

/-- The request payload of `src/app/api/estimate/calculate/route.ts`: an
optional entries array and an optional season string. -/
structure CalculatePayload where
  entries : Option (List CalcEntry)
  season : Option String

/-- The responses the route can produce: a 400 with an error message, a 200
with the engine result, or a 500 when the calculation fails. -/
inductive RouteResponse
  | badRequest (msg : String)
  | jsonOk (results : List EstimateItem)
  | serverError (msg : String)
  deriving DecidableEq

/-- The `try { calculateEstimate ... } catch` block of the route: an engine
failure is caught and reported as a 500 with the fixed message. -/
def runCalculation (env : RefDataEnv) (entries : List CalcEntry)
    (season : String) : RouteResponse :=
  match estimate env entries season with
  | Except.ok results => RouteResponse.jsonOk results
  | Except.error _ => RouteResponse.serverError "Calculation failed"

/-- The POST handler of `src/app/api/estimate/calculate/route.ts`: reject a
missing or empty entries array and more than 20 entries with a 400,
otherwise call the engine with the season defaulting to MJ. -/
def routePOST (env : RefDataEnv) (body : CalculatePayload) : RouteResponse :=
  match body.entries with
  | none => RouteResponse.badRequest "entries array is required"
  | some es =>
    if es.length = 0 then RouteResponse.badRequest "entries array is required"
    else if 20 < es.length then
      RouteResponse.badRequest "Maximum 20 subjects per estimate"
    else runCalculation env es (body.season.getD "MJ")

lemma processEntry_subjectId (env : RefDataEnv) (season : String)
    (ent : CalcEntry) (item : EstimateItem)
    (h : processEntry env season ent = Except.ok item) :
    item.subjectId = ent.subjectId := by
  rw [processEntry] at h
  rcases hs : env.getSyllabus ent.subjectId with _ | subj
  · rw [hs] at h
    cases h
  · rw [hs] at h
    rcases hr : resolve env.decay env.currentYear
        (env.getBoundaries ent.subjectId season) with err | tbl
    · rw [hr] at h
      rcases err with _ | _
      · cases h
        rfl
      · cases h
    · rw [hr] at h
      cases h
      rfl

lemma processEntry_error_shape (env : RefDataEnv) (season : String)
    (ent : CalcEntry) (e : EngineError)
    (h : processEntry env season ent = Except.error e) :
    (e.kind = ErrKind.validation ∨ e.kind = ErrKind.dataIntegrity) ∧
      e.message ≠ "" := by
  rw [processEntry] at h
  rcases hs : env.getSyllabus ent.subjectId with _ | subj
  · rw [hs] at h
    cases h
    refine ⟨Or.inl rfl, ?_⟩
    show ("unknown subject id" : String) ≠ ""
    decide
  · rw [hs] at h
    rcases hr : resolve env.decay env.currentYear
        (env.getBoundaries ent.subjectId season) with err | tbl
    · rw [hr] at h
      rcases err with _ | _
      · cases h
      · cases h
        refine ⟨Or.inr rfl, ?_⟩
        show ("corrupt boundary data" : String) ≠ ""
        decide
    · rw [hr] at h
      cases h

lemma processEntry_noData (env : RefDataEnv) (season : String)
    (ent : CalcEntry) (item : EstimateItem)
    (h : processEntry env season ent = Except.ok item)
    (hb : env.getBoundaries ent.subjectId season = []) :
    item.estimatedGrade = Grade.u ∧ item.yearsUsed = 0 := by
  rw [processEntry] at h
  rcases hs : env.getSyllabus ent.subjectId with _ | subj
  · rw [hs] at h
    cases h
  · rw [hs, hb] at h
    have hres : resolve env.decay env.currentYear ([] : List BoundaryRecord) =
        Except.error ResolveErr.insufficientData := rfl
    rw [hres] at h
    cases h
    exact ⟨rfl, rfl⟩

lemma processEntry_some_noData (env : RefDataEnv) (season : String)
    (ent : CalcEntry) (subj : Subject)
    (hs : env.getSyllabus ent.subjectId = some subj)
    (hb : env.getBoundaries ent.subjectId season = []) :
    processEntry env season ent =
      Except.ok ⟨ent.subjectId, clamp01 (weightedSum subj ent.marks),
        Grade.u, 0, false⟩ := by
  rw [processEntry, hs, hb]
  rfl

lemma processEntries_ok (env : RefDataEnv) (season : String) :
    ∀ (l : List CalcEntry) (rs : List EstimateItem),
      processEntries env season l = Except.ok rs →
      rs.length = l.length ∧
      ∀ i (h1 : i < l.length) (h2 : i < rs.length),
        processEntry env season (l.get ⟨i, h1⟩) = Except.ok (rs.get ⟨i, h2⟩) := by
  intro l
  induction l with
  | nil =>
    intro rs h
    rw [processEntries] at h
    cases h
    exact ⟨rfl, fun i h1 _ => absurd h1 (Nat.not_lt_zero i)⟩
  | cons ent rest ih =>
    intro rs h
    rw [processEntries] at h
    rcases hpe : processEntry env season ent with err | item
    · rw [hpe] at h
      cases h
    · rw [hpe] at h
      rcases hps : processEntries env season rest with err | items
      · rw [hps] at h
        cases h
      · rw [hps] at h
        cases h
        rcases ih items hps with ⟨hlen, hidx⟩
        refine ⟨by simp [hlen], ?_⟩
        intro i h1 h2
        cases i with
        | zero => exact hpe
        | succ j =>
          exact hidx j (Nat.lt_of_succ_lt_succ h1) (Nat.lt_of_succ_lt_succ h2)

lemma processEntries_error (env : RefDataEnv) (season : String) :
    ∀ (l : List CalcEntry) (e : EngineError),
      processEntries env season l = Except.error e →
      ∃ ent ∈ l, processEntry env season ent = Except.error e := by
  intro l
  induction l with
  | nil =>
    intro e h
    rw [processEntries] at h
    cases h
  | cons ent rest ih =>
    intro e h
    rw [processEntries] at h
    rcases hpe : processEntry env season ent with err | item
    · rw [hpe] at h
      cases h
      exact ⟨ent, List.mem_cons_self _ _, hpe⟩
    · rw [hpe] at h
      rcases hps : processEntries env season rest with err | items
      · rw [hps] at h
        cases h
        rcases ih e hps with ⟨ent', hmem, hent'⟩
        exact ⟨ent', List.mem_cons_of_mem _ hmem, hent'⟩
      · rw [hps] at h
        cases h

lemma processEntries_all_ok (env : RefDataEnv) (season : String) :
    ∀ (l : List CalcEntry),
      (∀ ent ∈ l, ∃ item, processEntry env season ent = Except.ok item) →
      ∃ rs, processEntries env season l = Except.ok rs := by
  intro l
  induction l with
  | nil => exact fun _ => ⟨[], rfl⟩
  | cons ent rest ih =>
    intro h
    rcases h ent (List.mem_cons_self _ _) with ⟨item, hitem⟩
    rcases ih (fun q hq => h q (List.mem_cons_of_mem _ hq)) with ⟨items, hitems⟩
    refine ⟨item :: items, ?_⟩
    rw [processEntries, hitem, hitems]

lemma estimate_ok_processEntries (env : RefDataEnv) (entries : List CalcEntry)
    (season : String) (rs : List EstimateItem)
    (h : estimate env entries season = Except.ok rs) :
    processEntries env season entries = Except.ok rs := by
  rw [estimate] at h
  split_ifs at h
  exact h

lemma estimate_error_shape (env : RefDataEnv) (entries : List CalcEntry)
    (season : String) (e : EngineError)
    (h : estimate env entries season = Except.error e) :
    (e.kind = ErrKind.validation ∨ e.kind = ErrKind.dataIntegrity) ∧
      e.message ≠ "" := by
  rw [estimate] at h
  split_ifs at h with hc hu ho
  · cases h
    refine ⟨Or.inl rfl, ?_⟩
    show ("entry count must be between 1 and 20" : String) ≠ ""
    decide
  · cases h
    refine ⟨Or.inl rfl, ?_⟩
    show ("unknown subject id" : String) ≠ ""
    decide
  · cases h
    refine ⟨Or.inl rfl, ?_⟩
    show ("invalid component marks" : String) ≠ ""
    decide
  · rcases processEntries_error env season entries e h with ⟨ent, _, hent⟩
    exact processEntry_error_shape env season ent e hent

/-- C4: sparse historical data never fails the call — `estimate` never
returns an `insufficientData` error; in a successful batch every entry whose
(subject, season) has zero years of boundary data is degraded to estimated
grade U with zero years used; and a batch that passes validation in which
every entry lacks boundary data still succeeds. -/
theorem estimate_degrades_missing_data :
    (∀ env entries season e, estimate env entries season = Except.error e →
      e.kind ≠ ErrKind.insufficientData) ∧
    (∀ env entries season rs, estimate env entries season = Except.ok rs →
      ∀ i (h1 : i < entries.length) (h2 : i < rs.length),
        env.getBoundaries (entries.get ⟨i, h1⟩).subjectId season = [] →
        (rs.get ⟨i, h2⟩).estimatedGrade = Grade.u ∧
        (rs.get ⟨i, h2⟩).yearsUsed = 0) ∧
    (∀ env entries season, 1 ≤ entries.length → entries.length ≤ 20 →
      (∀ ent ∈ entries, (env.getSyllabus ent.subjectId).isSome ∧
        entryAggErrors env ent = []) →
      (∀ ent ∈ entries, env.getBoundaries ent.subjectId season = []) →
      ∃ rs, estimate env entries season = Except.ok rs) := by
  refine ⟨?_, ?_, ?_⟩
  · intro env entries season e h
    rcases estimate_error_shape env entries season e h with ⟨hk, _⟩
    rcases hk with hk | hk <;> rw [hk] <;> decide
  · intro env entries season rs h i h1 h2 hb
    have hps := estimate_ok_processEntries env entries season rs h
    rcases processEntries_ok env season entries rs hps with ⟨_, hidx⟩
    exact processEntry_noData env season _ _ (hidx i h1 h2) hb
  · intro env entries season hlo hhi hval hnb
    have hcount : ¬ (entries.length = 0 ∨ 20 < entries.length) := by
      push_neg
      omega
    have hu : unknownEntries env entries = [] := by
      refine List.filter_eq_nil_iff.2 ?_
      intro ent hent
      have := (hval ent hent).1
      simp [Option.isNone_iff_eq_none]
      rcases Option.isSome_iff_exists.1 this with ⟨subj, hsubj⟩
      simp [hsubj]
    have ho : offendingEntries env entries = [] := by
      refine List.filter_eq_nil_iff.2 ?_
      intro ent hent
      simp [(hval ent hent).2]
    have hall : ∀ ent ∈ entries, ∃ item,
        processEntry env season ent = Except.ok item := by
      intro ent hent
      rcases Option.isSome_iff_exists.1 (hval ent hent).1 with ⟨subj, hsubj⟩
      exact ⟨_, processEntry_some_noData env season ent subj hsubj (hnb ent hent)⟩
    rcases processEntries_all_ok env season entries hall with ⟨rs, hrs⟩
    refine ⟨rs, ?_⟩
    rw [estimate, if_neg hcount, if_neg (by simp [hu]), if_neg (by simp [ho])]
    exact hrs

/-- A provider that knows every subject id as a syllabus with no components
and has no boundary data for any season. -/
def plainEnv : RefDataEnv :=
  ⟨fun sid => some ⟨sid, []⟩, fun _ _ => [], fun _ => 1, 2026⟩

/-- Concrete instantiation of `estimate_degrades_missing_data`: a one-entry
batch whose subject has zero years of boundary data still succeeds. -/
theorem estimate_degrades_missing_data_witness :
    ∃ rs, estimate plainEnv [⟨"s1", []⟩] "MJ" = Except.ok rs := by
  refine estimate_degrades_missing_data.2.2 plainEnv [⟨"s1", []⟩] "MJ"
    (by decide) (by decide) ?_ ?_
  · intro ent hent
    rcases List.mem_singleton.1 hent with rfl
    exact ⟨rfl, rfl⟩
  · intro ent hent
    rfl

/-- C6: whenever `estimate` returns a batch of results, there are exactly as
many results as input entries and the i-th result carries the i-th entry's
subject id — output order matches input order positionally. -/
theorem estimate_order_preserving :
    ∀ env entries season rs, estimate env entries season = Except.ok rs →
      rs.length = entries.length ∧
      ∀ i (h1 : i < entries.length) (h2 : i < rs.length),
        (rs.get ⟨i, h2⟩).subjectId = (entries.get ⟨i, h1⟩).subjectId := by
  intro env entries season rs h
  have hps := estimate_ok_processEntries env entries season rs h
  rcases processEntries_ok env season entries rs hps with ⟨hlen, hidx⟩
  exact ⟨hlen, fun i h1 h2 =>
    processEntry_subjectId env season _ _ (hidx i h1 h2)⟩

lemma estimate_plain_two :
    estimate plainEnv [⟨"s1", []⟩, ⟨"s2", []⟩] "MJ" =
      Except.ok [⟨"s1", 0, Grade.u, 0, false⟩, ⟨"s2", 0, Grade.u, 0, false⟩] := by
  with_unfolding_all rfl

/-- Concrete instantiation of `estimate_order_preserving`: a two-entry batch
returns two results whose subject ids match the input order. -/
theorem estimate_order_preserving_witness :
    ([⟨"s1", 0, Grade.u, 0, false⟩, ⟨"s2", 0, Grade.u, 0, false⟩] :
        List EstimateItem).length =
      ([⟨"s1", []⟩, ⟨"s2", []⟩] : List CalcEntry).length ∧
    ∀ i (h1 : i < ([⟨"s1", []⟩, ⟨"s2", []⟩] : List CalcEntry).length)
      (h2 : i < ([⟨"s1", 0, Grade.u, 0, false⟩, ⟨"s2", 0, Grade.u, 0, false⟩] :
        List EstimateItem).length),
      (([⟨"s1", 0, Grade.u, 0, false⟩, ⟨"s2", 0, Grade.u, 0, false⟩] :
        List EstimateItem).get ⟨i, h2⟩).subjectId =
      (([⟨"s1", []⟩, ⟨"s2", []⟩] : List CalcEntry).get ⟨i, h1⟩).subjectId :=
  estimate_order_preserving plainEnv [⟨"s1", []⟩, ⟨"s2", []⟩] "MJ"
    [⟨"s1", 0, Grade.u, 0, false⟩, ⟨"s2", 0, Grade.u, 0, false⟩]
    estimate_plain_two

/-- C7: when the batch passes the count and subject checks but some entry
has Aggregator errors (missing component, unknown component or mark out of
range), `estimate` fails the entire call with a single validation error
whose offending list names every offending entry's subject id, and only
those — no partial result is returned. -/
theorem estimate_aggregator_errors_fail_batch :
    ∀ env entries season, ¬ (entries.length = 0 ∨ 20 < entries.length) →
      unknownEntries env entries = [] →
      (∃ ent ∈ entries, entryAggErrors env ent ≠ []) →
      ∃ e, estimate env entries season = Except.error e ∧
        e.kind = ErrKind.validation ∧
        (∀ ent ∈ entries, entryAggErrors env ent ≠ [] →
          ent.subjectId ∈ e.offending) ∧
        (∀ s ∈ e.offending, ∃ ent ∈ entries,
          ent.subjectId = s ∧ entryAggErrors env ent ≠ []) := by
  intro env entries season hcount hu hex
  have ho : offendingEntries env entries ≠ [] := by
    rcases hex with ⟨ent, hent, herr⟩
    intro hnil
    have := List.filter_eq_nil_iff.1 hnil ent hent
    simp [herr] at this
  refine ⟨⟨ErrKind.validation, "invalid component marks",
    (offendingEntries env entries).map CalcEntry.subjectId⟩, ?_, rfl, ?_, ?_⟩
  · rw [estimate, if_neg hcount, if_neg (by simp [hu]), if_pos ho]
  · intro ent hent herr
    refine List.mem_map.2 ⟨ent, ?_, rfl⟩
    exact List.mem_filter.2 ⟨hent, by simp [herr]⟩
  · intro s hs
    rcases List.mem_map.1 hs with ⟨ent, hent, rfl⟩
    rcases List.mem_filter.1 hent with ⟨hmem, hdec⟩
    exact ⟨ent, hmem, rfl, by simpa using hdec⟩

/-- A provider whose every subject requires one component P1 (max 40,
weight 1) and which has no boundary data. -/
def strictEnv : RefDataEnv :=
  ⟨fun sid => some ⟨sid, [⟨"P1", 40, 1⟩]⟩, fun _ _ => [], fun _ => 1, 2026⟩

/-- Concrete instantiation of `estimate_aggregator_errors_fail_batch`: an
entry that omits the required component P1 fails the whole call with a
validation error naming it. -/
theorem estimate_aggregator_errors_fail_batch_witness :
    ∃ e, estimate strictEnv [⟨"s1", []⟩] "MJ" = Except.error e ∧
      e.kind = ErrKind.validation ∧
      (∀ ent ∈ ([⟨"s1", []⟩] : List CalcEntry),
        entryAggErrors strictEnv ent ≠ [] → ent.subjectId ∈ e.offending) ∧
      (∀ s ∈ e.offending, ∃ ent ∈ ([⟨"s1", []⟩] : List CalcEntry),
        ent.subjectId = s ∧ entryAggErrors strictEnv ent ≠ []) := by
  refine estimate_aggregator_errors_fail_batch strictEnv [⟨"s1", []⟩] "MJ"
    (by decide) rfl ⟨⟨"s1", []⟩, List.mem_singleton.2 rfl, ?_⟩
  intro hc
  have : entryAggErrors strictEnv ⟨"s1", []⟩ =
      [AggError.missingComponent "P1"] := rfl
  rw [this] at hc
  cases hc

/-- C8: every failure `estimate` surfaces is a typed error carrying a
machine-readable kind from the taxonomy (validation / insufficient data /
data integrity — in fact only the first and the last occur at batch level)
together with a nonempty human-readable message, so callers can distinguish
the kind programmatically rather than by message text. -/
theorem estimate_error_kinds :
    ∀ env entries season e, estimate env entries season = Except.error e →
      (e.kind = ErrKind.validation ∨ e.kind = ErrKind.insufficientData ∨
        e.kind = ErrKind.dataIntegrity) ∧
      e.message ≠ "" := by
  intro env entries season e h
  rcases estimate_error_shape env entries season e h with ⟨hk, hm⟩
  rcases hk with hk | hk
  · exact ⟨Or.inl hk, hm⟩
  · exact ⟨Or.inr (Or.inr hk), hm⟩

/-- Concrete instantiation of `estimate_error_kinds`: the empty batch fails
with a typed error whose kind is in the taxonomy and whose message is
nonempty. -/
theorem estimate_error_kinds_witness :
    ((⟨ErrKind.validation, "entry count must be between 1 and 20", []⟩ :
        EngineError).kind = ErrKind.validation ∨
      (⟨ErrKind.validation, "entry count must be between 1 and 20", []⟩ :
        EngineError).kind = ErrKind.insufficientData ∨
      (⟨ErrKind.validation, "entry count must be between 1 and 20", []⟩ :
        EngineError).kind = ErrKind.dataIntegrity) ∧
    (⟨ErrKind.validation, "entry count must be between 1 and 20", []⟩ :
      EngineError).message ≠ "" :=
  estimate_error_kinds plainEnv [] "MJ"
    ⟨ErrKind.validation, "entry count must be between 1 and 20", []⟩ rfl

/-- C9: `estimate` is deterministic — it is a pure function of the reference
data environment, the entries and the season, so identical inputs against
unchanged reference data always produce identical results. -/
theorem estimate_deterministic :
    ∀ env entries season,
      estimate env entries season = estimate env entries season :=
  fun _ _ _ => rfl

lemma routePOST_inRange (env : RefDataEnv) (es : List CalcEntry)
    (seasonOpt : Option String) (h1 : 1 ≤ es.length) (h2 : es.length ≤ 20) :
    routePOST env ⟨some es, seasonOpt⟩ =
      runCalculation env es (seasonOpt.getD "MJ") := by
  rw [routePOST]
  dsimp only
  rw [if_neg (by omega), if_neg (by omega)]

/-- C5: the route rejects an empty entries array and any batch of more than
20 entries with a validation error, and for every batch of 1 through 20
entries the count check passes and the request reaches the calculation — the
bound is inclusive on both sides. -/
theorem route_entry_count_bounds :
    (∀ env seasonOpt, routePOST env ⟨some [], seasonOpt⟩ =
      RouteResponse.badRequest "entries array is required") ∧
    (∀ env es seasonOpt, 21 ≤ es.length →
      routePOST env ⟨some es, seasonOpt⟩ =
        RouteResponse.badRequest "Maximum 20 subjects per estimate") ∧
    (∀ env es seasonOpt, 1 ≤ es.length → es.length ≤ 20 →
      routePOST env ⟨some es, seasonOpt⟩ =
        runCalculation env es (seasonOpt.getD "MJ")) := by
  refine ⟨fun env seasonOpt => rfl, ?_, ?_⟩
  · intro env es seasonOpt h
    rw [routePOST]
    dsimp only
    rw [if_neg (by omega), if_pos (by omega)]
  · intro env es seasonOpt h1 h2
    exact routePOST_inRange env es seasonOpt h1 h2

/-- Concrete instantiation of `route_entry_count_bounds`: 21 identical
entries are rejected while the same request with 20 entries passes the count
check and reaches the calculation. -/
theorem route_entry_count_bounds_witness :
    routePOST plainEnv ⟨some (List.replicate 21 ⟨"s1", []⟩), none⟩ =
      RouteResponse.badRequest "Maximum 20 subjects per estimate" ∧
    routePOST plainEnv ⟨some (List.replicate 20 ⟨"s1", []⟩), none⟩ =
      runCalculation plainEnv (List.replicate 20 ⟨"s1", []⟩)
        ((none : Option String).getD "MJ") :=
  ⟨route_entry_count_bounds.2.1 plainEnv (List.replicate 21 ⟨"s1", []⟩) none
      (by simp),
    route_entry_count_bounds.2.2 plainEnv (List.replicate 20 ⟨"s1", []⟩) none
      (by simp) (by simp)⟩

/-- C10: a request whose season field is absent is not rejected — for any
in-range batch the route proceeds to the calculation with the season
defaulting to MJ, never returning a validation error for the season; and
whatever season string is supplied is passed through to the engine without
any validation. -/
theorem route_season_default :
    ∀ env es seasonOpt, 1 ≤ es.length → es.length ≤ 20 →
      routePOST env ⟨some es, none⟩ = runCalculation env es "MJ" ∧
      routePOST env ⟨some es, seasonOpt⟩ =
        runCalculation env es (seasonOpt.getD "MJ") ∧
      (∀ msg, routePOST env ⟨some es, none⟩ ≠ RouteResponse.badRequest msg) := by
  intro env es seasonOpt h1 h2
  refine ⟨routePOST_inRange env es none h1 h2, routePOST_inRange env es seasonOpt h1 h2, ?_⟩
  intro msg hbad
  rw [routePOST_inRange env es none h1 h2] at hbad
  rw [runCalculation] at hbad
  rcases hres : estimate env es ((none : Option String).getD "MJ") with e | rs
    <;> rw [hres] at hbad <;> cases hbad

/-- Concrete instantiation of `route_season_default`: a valid one-entry
request with no season field proceeds with season MJ, with an arbitrary
supplied season passed through, and is not rejected. -/
theorem route_season_default_witness :
    routePOST plainEnv ⟨some [⟨"s1", []⟩], none⟩ =
      runCalculation plainEnv [⟨"s1", []⟩] "MJ" ∧
    routePOST plainEnv ⟨some [⟨"s1", []⟩], some "anything"⟩ =
      runCalculation plainEnv [⟨"s1", []⟩]
        ((some "anything" : Option String).getD "MJ") ∧
    (∀ msg, routePOST plainEnv ⟨some [⟨"s1", []⟩], none⟩ ≠
      RouteResponse.badRequest msg) :=
  route_season_default plainEnv [⟨"s1", []⟩] (some "anything")
    (by decide) (by decide)

end Engine
